import Mathlib

/-!
Verification of the ScanM `.smh`/`.smp` file reader (scanmsupport/scanm).

This file gives a shallow embedding, in Lean 4, of the parts of the reader
that the specification's claims are about:

* `scanm_smh.py` — the per-line key/value parser of the header file
  (`SMH.loadSMH`), including the dual-byte line decoder, the
  UINT32/UINT64/REAL32/String value decoding, the error-key recording and
  the repair pass;
* `scanm_smp.py` — the pixel reader `SMP.loadSMP`: its entry checks and
  state reset, the buffer/frame arithmetic, the per-channel reshape
  stage, and the accessor `SMP.getData` with its cropping slice;
* `scanm_global.py` — the error codes and scan-mode constants.

Python strings are embedded as `List Char` (`PyStr`); Python `dict`s with
insertion order as association lists updated in place; Python exceptions
as an explicit `PyExn` value threaded through `Except`.  Machine floats
are idealised as `ℚ` (no claim below depends on IEEE rounding), and
Python's `int(...)` conversion of a real number is the exact truncation
toward zero (`truncQ`).
-/

/-- Python string, embedded as its character list. -/
abbrev PyStr := List Char

deriving instance DecidableEq for Except

/-- Python exceptions that the embedded code can raise. -/
inductive PyExn where
  | indexError
  | typeError
  | valueError
  | nameError
  | notImplementedError
  | assertionError
  deriving DecidableEq, Repr

/-- Truncation of a rational toward zero: Python's `int(x)` on a real value
(`Int.tdiv` rounds toward zero, matching CPython's `int()`). -/
def truncQ (q : ℚ) : ℤ := q.num.tdiv (q.den : ℤ)

/-- Characters Python's `str.strip()` removes (ASCII whitespace). -/
def isPySpace (c : Char) : Bool :=
  c.toNat = 32 ∨ c.toNat = 9 ∨ c.toNat = 10 ∨ c.toNat = 13 ∨ c.toNat = 11 ∨ c.toNat = 12

/-- Python `str.strip()`. -/
def pyStrip (s : PyStr) : PyStr :=
  ((s.dropWhile isPySpace).reverse.dropWhile isPySpace).reverse

/-- Python `str.lower()` (ASCII range, which is all the source compares). -/
def pyLower (s : PyStr) : PyStr := s.map Char.toLower

/-- Helper for `pySplit` carrying the current piece (reversed). -/
def pySplitGo (sep : Char) : PyStr → PyStr → List PyStr
  | [], acc => [acc.reverse]
  | c :: rest, acc =>
    if c = sep then acc.reverse :: pySplitGo sep rest []
    else pySplitGo sep rest (c :: acc)

/-- Python `str.split(sep)` for a one-character separator: keeps empty
pieces, `"".split(sep) = [""]`. -/
def pySplit (sep : Char) (s : PyStr) : List PyStr := pySplitGo sep s []

/-- Digit run to a natural number. -/
def digitsVal (cs : List Char) : ℕ :=
  cs.foldl (fun a c => a * 10 + (c.toNat - 48)) 0

/-- Nonempty all-digit run, else `none`. -/
def natDigits (cs : List Char) : Option ℕ :=
  if cs ≠ [] ∧ cs.all Char.isDigit then some (digitsVal cs) else none

/-- Python `int(s)` on a string: optional sign around a digit run
(underscores and non-ASCII digits are not modelled; no claim uses them).
`none` embeds the raised `ValueError`. -/
def pyIntOfToken (s : PyStr) : Option ℤ :=
  match pyStrip s with
  | '+' :: r => (natDigits r).map Int.ofNat
  | '-' :: r => (natDigits r).map (fun n => -(n : ℤ))
  | r => (natDigits r).map Int.ofNat

/-- Mantissa-and-exponent acceptance for `pyFloatOfToken`: digits,
optional fractional part, optional exponent; at least one mantissa digit. -/
def pyFloatDec (cs : List Char) : Option ℚ :=
  let ip := cs.takeWhile Char.isDigit
  let r1 := cs.dropWhile Char.isDigit
  let hasDot := match r1 with | '.' :: _ => true | _ => false
  let fp := if hasDot then (r1.drop 1).takeWhile Char.isDigit else []
  let r2 := if hasDot then (r1.drop 1).dropWhile Char.isDigit else r1
  if ip = [] ∧ fp = [] then none
  else
    let mant : ℚ := (digitsVal ip : ℚ) + (digitsVal fp : ℚ) / ((10 : ℚ) ^ fp.length)
    match r2 with
    | [] => some mant
    | 'e' :: r3 =>
      match r3 with
      | '+' :: r4 => (natDigits r4).map (fun e => mant * (10 : ℚ) ^ e)
      | '-' :: r4 => (natDigits r4).map (fun e => mant / (10 : ℚ) ^ e)
      | r4 => (natDigits r4).map (fun e => mant * (10 : ℚ) ^ e)
    | _ => none

/-- Python `float(s)`: outer `none` embeds the raised `ValueError`; the
inner value is `none` for the non-finite literals (`nan`, `inf`) and the
exact rational of the literal otherwise (floats idealised as `ℚ`). -/
def pyFloatOfToken (s : PyStr) : Option (Option ℚ) :=
  let t := pyLower (pyStrip s)
  let sgnNeg : Bool := match t with | '-' :: _ => true | _ => false
  let u := match t with | '+' :: r => r | '-' :: r => r | r => r
  if u = ['n', 'a', 'n'] ∨ u = ['i', 'n', 'f'] ∨
      u = ['i', 'n', 'f', 'i', 'n', 'i', 't', 'y'] then
    some none
  else
    (pyFloatDec u).map (fun q => some (if sgnNeg then -q else q))

/-- Python `list[i]` read access (raises `IndexError` out of range;
negative indices are not needed by the embedded code paths). -/
def pyIndex (l : List α) (i : ℕ) : Except PyExn α :=
  match l.get? i with
  | some a => .ok a
  | none => .error .indexError

/- ------------------------------------------------------------------
scanm_global.py: constants and error codes
------------------------------------------------------------------ -/

def ERR_Ok : ℕ := 0
def ERR_NotImplemented : ℕ := 1
def ERR_FileNotFound : ℕ := 2
def ERR_InvalidSMHObject : ℕ := 3
def ERR_SMH_NoParametersFound : ℕ := 4
def ERR_CannotReshapePixelData : ℕ := 5
def ERR_UnknownScanMode : ℕ := 6

def ScM_scanMode_XYImage : ℕ := 0
def ScM_scanMode_XYZImage : ℕ := 3
def ScM_scanMode_XZYImage : ℕ := 4
def ScM_scanMode_ZXYImage : ℕ := 5
def ScM_scanMode_TrajectArb : ℕ := 6

def ScM_scanType_zStack : ℕ := 11

/-- `ScM_scanModeStr` has 8 entries; indexing it with a scan mode outside
`-8 ≤ m < 8` raises `IndexError` in Python. -/
def ScM_scanModeStrLen : ℕ := 8

def ScM_PixDataResorted : ℕ := 0
def ScM_PixDataDecoded : ℕ := 1

def SCMIO_maxInputChans : ℕ := 4

/- ------------------------------------------------------------------
scanm_smh.py: the key/value line parser of SMH.loadSMH
------------------------------------------------------------------ -/

/-- The numpy type tag stored in slot 0 of a parameter entry. -/
inductive NpType where
  | character
  | float64
  | uint32
  | uint64
  deriving DecidableEq, Repr

/-- The value stored in slot 2 of a parameter entry.  `vNone` is Python's
`None`; `vFloat none` is a non-finite float (NaN). -/
inductive PVal where
  | vNone
  | vStr (s : PyStr)
  | vStrList (l : List PyStr)
  | vInt (n : ℤ)
  | vFloat (q : Option ℚ)
  deriving DecidableEq, Repr

/-- A parameter-dictionary entry `[tid, nvl, svl]`. -/
structure Entry where
  tid : NpType
  nvl : ℕ
  val : PVal
  deriving DecidableEq, Repr

/-- Result of parsing one key/value line: the key, its entry, and whether
the key was appended to `key_w_err`. -/
structure SMHLine where
  key : PyStr
  ent : Entry
  hasErr : Bool
  deriving DecidableEq, Repr

/-- `dict.update({k: e})` on an insertion-ordered dictionary. -/
def updateKV (d : List (PyStr × Entry)) (k : PyStr) (e : Entry) :
    List (PyStr × Entry) :=
  if d.any (fun p => p.1 = k) then
    d.map (fun p => if p.1 = k then (k, e) else p)
  else d ++ [(k, e)]

/-- `SMH.get(key)` restricted to the value slot (`index=-1`, no removal):
`None` for a missing key is `Option.none`. -/
def getVal (d : List (PyStr × Entry)) (k : PyStr) : Option PVal :=
  (d.find? (fun p => p.1 = k)).map (fun p => p.2.val)

/-- Value decoding of one line, given the type tag `sty`, the stripped key
`svr` and the nonempty stripped value list `v :: _` (scanm_smh.py lines
114-139).  `String` splits on `|`; `REAL32` is `float(v)` whose failure
raises `ValueError`; `UINT32`/`UINT64` treat a case-insensitive `nan`
as a null float and record an integer-parse failure as an error key. -/
def parseTyped (sty svr : PyStr) (v : PyStr) : Except PyExn SMHLine :=
  if sty = "String".toList then
    let svl := pySplit '|' v
    match svl with
    | [x] => .ok ⟨svr, ⟨.character, 1, .vStr x⟩, false⟩
    | _ => .ok ⟨svr, ⟨.character, svl.length, .vStrList svl⟩, false⟩
  else if sty = "REAL32".toList then
    match pyFloatOfToken v with
    | none => .error .valueError
    | some fv => .ok ⟨svr, ⟨.float64, 1, .vFloat fv⟩, false⟩
  else if sty = "UINT32".toList ∨ sty = "UINT64".toList then
    if pyLower v = "nan".toList then
      .ok ⟨svr, ⟨.float64, 1, .vNone⟩, false⟩
    else
      let tid := if sty = "UINT32".toList then NpType.uint32 else NpType.uint64
      match pyIntOfToken v with
      | some n => .ok ⟨svr, ⟨tid, 1, .vInt n⟩, false⟩
      | none => .ok ⟨svr, ⟨tid, 1, .vNone⟩, true⟩
  else .error .notImplementedError

/-- Parse one key/value line (scanm_smh.py lines 103-139): split on the
type separator `,`, the key/value separator `=`, and the entry separator
`;` (empty segments dropped before stripping), then decode by type. -/
def parseLine (s : PyStr) : Except PyExn SMHLine := do
  let parts := pySplit ',' s
  let sty := parts.headD []
  let rest1 ← pyIndex parts 1
  let kv := pySplit '=' rest1
  let svr := pyStrip (kv.headD [])
  let v1 ← pyIndex kv 1
  let toks := ((pySplit ';' v1).filter (fun t => t.length > 0)).map pyStrip
  let v ← pyIndex toks 0
  parseTyped sty svr v

/-- The line loop of `loadSMH`: left-to-right over all lines, updating the
dictionary and accumulating `key_w_err`; an uncaught exception from a line
aborts the whole loop. -/
def parseLinesGo (ls : List PyStr) (d : List (PyStr × Entry))
    (errs : List PyStr) :
    Except PyExn (List (PyStr × Entry) × List PyStr) :=
  match ls with
  | [] => .ok (d, errs)
  | l :: rest => do
    let le ← parseLine l
    parseLinesGo rest (updateKV d le.key le.ent)
      (if le.hasErr then errs ++ [le.key] else errs)

/-- The parameter-parsing loop started on an empty dictionary. -/
def parseAllLines (ls : List PyStr) :
    Except PyExn (List (PyStr × Entry) × List PyStr) :=
  parseLinesGo ls [] []

/-- `int(x)` applied to the indexed element of the `ScanPathFunc` value
inside the repair pass: `self.get(...)[i]` then `int(...)`.  Indexing a
string yields a one-character string, indexing anything non-sequence (or
`None`) raises `TypeError`. -/
def repairFetch (d : List (PyStr × Entry)) (i : ℕ) : Except PyExn ℤ :=
  match getVal d "ScanPathFunc".toList with
  | some (.vStrList l) => do
    let x ← pyIndex l i
    match pyIntOfToken x with
    | some n => .ok n
    | none => .error .valueError
  | some (.vStr x) => do
    let c ← pyIndex x i
    match pyIntOfToken [c] with
    | some n => .ok n
    | none => .error .valueError
  | _ => .error .typeError

/-- One step of the repair pass (scanm_smh.py lines 150-160): only the two
keys of the fixed substitute table are recovered (from sub-indices 5 and 4
of the scan-path-function descriptor); any other error key is left as is. -/
def repairOne (d : List (PyStr × Entry)) (k : PyStr) :
    Except PyExn (List (PyStr × Entry)) :=
  if k = "PixRetraceLen".toList then do
    let n ← repairFetch d 5
    .ok (updateKV d "PixRetraceLen".toList ⟨.uint32, 1, .vInt n⟩)
  else if k = "XPixLineOffs".toList then do
    let n ← repairFetch d 4
    .ok (updateKV d "XPixLineOffs".toList ⟨.uint32, 1, .vInt n⟩)
  else .ok d

/-- The repair pass over all recorded error keys, in order. -/
def repairAll (d : List (PyStr × Entry)) :
    List PyStr → Except PyExn (List (PyStr × Entry))
  | [] => .ok d
  | k :: ks => do
    let d1 ← repairOne d k
    repairAll d1 ks

/-- The parsing portion of `SMH.loadSMH`: parse every line, then run the
repair pass over the recorded error keys. -/
def loadSMH_parse (ls : List PyStr) :
    Except PyExn (List (PyStr × Entry) × List PyStr) := do
  let (d, errs) ← parseAllLines ls
  let d1 ← repairAll d errs
  .ok (d1, errs)

/- ------------------------------------------------------------------
scanm_smh.py lines 77-88: the dual-byte line decoder
------------------------------------------------------------------ -/

/-- The loop body of the dual-byte decoder (scanm_smh.py lines 79-86),
with `i` standing for Python's `ich + 1` (so the loop starts at `i = 0`):
per iteration, if `buf[ich+1] == 0` emit `buf[ich+2]` and advance by 2,
otherwise replace the last emitted character by the two characters
`buf[ich+1]`, `buf[ich+3]` and advance by 3.  Out-of-range reads default
to 0 (they do not occur on the traces the theorems are about). -/
def dblGo (buf : List ℕ) : ℕ → ℕ → List Char → List Char
  | 0, _, tmp => tmp
  | n + 1, i, tmp =>
    if buf.getD i 0 = 0 then
      dblGo buf n (i + 2) (tmp ++ [Char.ofNat (buf.getD (i + 1) 0)])
    else
      dblGo buf n (i + 3)
        (tmp.dropLast ++ [Char.ofNat (buf.getD i 0), Char.ofNat (buf.getD (i + 2) 0)])

/-- The dual-byte line decoder: run the loop `(len(buf) - 1) // 2` times
starting at `ich = -1`, then keep the text before the first newline
(`"".join(tmp).split("\n")[0]`). -/
def decodeDBL (buf : List ℕ) : PyStr :=
  (dblGo buf ((buf.length - 1) / 2) 0 []).takeWhile (fun c => c ≠ '\n')

/-- The byte stream the decoder sees for a line of text `cs`: the header
file interleaves every character with a zero byte, and `readline` (on the
ISO-8859-1 text) ends the chunk at the newline byte, so the loop input is
`c0 0 c1 0 ... c_last 0 10`. -/
def encodeDBL (cs : PyStr) : List ℕ :=
  (cs.flatMap (fun c => [c.toNat, 0])) ++ [10]

/- ------------------------------------------------------------------
scanm_smp.py lines 80-176: the buffer/frame arithmetic of SMP.loadSMP
------------------------------------------------------------------ -/

/-- The parameter values `SMP.loadSMP` reads from the header store before
computing the buffer/frame arithmetic. -/
structure SmpParams where
  scanMode : ℕ
  scanType : ℕ
  dxFr : ℕ
  dyFr : ℕ
  dzFr : ℕ
  nFrPerStep0 : ℕ
  nStimBufPerFr : ℕ
  nPixBufsSet0 : ℕ
  pixBufCounter0 : ℕ
  pixBufLenList : List ℕ
  nInputCh : ℕ
  nImgPerFr0 : ℕ
  deriving DecidableEq, Repr

/-- The intermediate values the arithmetic produces. -/
structure SmpArithOut where
  nPixPerFr : ℕ
  nBufPerFr : ℚ
  nPixB : ℤ
  nFr : ℤ
  deriving DecidableEq, Repr

/-- Straight-line translation of scanm_smp.py lines 81-83 and 157-175
(the XY-image branch, `dFast = dxFr`): the averaging step count, the
stimulus-buffer correction of `nPixBufsSet`/`pixBufCounter`, and the
pixel/buffer/frame counts, with Python's `int(...)` as `truncQ`.
`pixBufLenList[0]` is read with default 0 (the list is nonempty on every
loaded recording). -/
def smpArith (p : SmpParams) : SmpArithOut :=
  let nFrPerStep1 := p.nFrPerStep0
  let isAvZStack := p.scanType = ScM_scanType_zStack ∧ nFrPerStep1 > 1
  let nFrPerStep := if isAvZStack then nFrPerStep1 else 1
  let dFast := p.dxFr
  let dSlow1 := if p.dyFr > 0 then p.dyFr else 1
  let dSlow2 := if p.dzFr > 0 then p.dzFr else 1
  let nPixBufsSet :=
    if p.nStimBufPerFr > 0 then p.nPixBufsSet0 * p.nStimBufPerFr else p.nPixBufsSet0
  let pixBufCounter :=
    if p.nStimBufPerFr > 0 then p.pixBufCounter0 * p.nStimBufPerFr else p.pixBufCounter0
  let pixBLen := p.pixBufLenList.headD 0
  let nPixPerFr := dFast * dSlow1 * dSlow2
  let nBufPerFr : ℚ := (nPixPerFr : ℚ) / (pixBLen : ℚ)
  let nPixBr : ℚ :=
    if nPixBufsSet = pixBufCounter then (nPixBufsSet : ℚ) * nBufPerFr
    else ((nPixBufsSet : ℚ) - (pixBufCounter : ℚ)) * nBufPerFr
  let nPixB : ℤ := truncQ (nPixBr * (nFrPerStep : ℚ))
  let nImgPerFr := max 1 p.nImgPerFr0
  let nFr : ℤ :=
    truncQ (((nPixB : ℚ) / (nFrPerStep : ℚ) * (pixBLen : ℚ)) / (nPixPerFr : ℚ) * (nImgPerFr : ℚ))
  ⟨nPixPerFr, nBufPerFr, nPixB, nFr⟩

/- The following definitions restate the arithmetic in the specification's
own words (spec section 4.4); the C1 theorem proves them equal to the
translation `smpArith` above. -/

/-- Spec: "`pixelsPerFrame` = fastAxisLength × slowAxis1 × slowAxis2
(slow axes default to 1 if declared as 0)". -/
def spec_pixelsPerFrame (p : SmpParams) : ℕ :=
  p.dxFr * (if p.dyFr = 0 then 1 else p.dyFr) * (if p.dzFr = 0 then 1 else p.dzFr)

/-- Spec: "`pixelBufferLength` = first entry of the per-channel
pixel-buffer-length list". -/
def spec_pixelBufferLength (p : SmpParams) : ℕ := p.pixBufLenList.headD 0

/-- Spec: "`buffersPerFrame` = pixelsPerFrame / pixelBufferLength
(real-valued intermediate)". -/
def spec_buffersPerFrame (p : SmpParams) : ℚ :=
  (spec_pixelsPerFrame p : ℚ) / (spec_pixelBufferLength p : ℚ)

/-- The averaging-step count the spec formulas divide and scale by
(`NFrPerStep` when averaging a z-stack, otherwise 1). -/
def spec_framesPerAveragingStep (p : SmpParams) : ℕ :=
  if p.scanType = ScM_scanType_zStack ∧ p.nFrPerStep0 > 1 then p.nFrPerStep0 else 1

/-- The stimulus-buffer-corrected `nPixBufsSet` the formulas consume. -/
def spec_nPixBufsSet (p : SmpParams) : ℕ :=
  if p.nStimBufPerFr > 0 then p.nPixBufsSet0 * p.nStimBufPerFr else p.nPixBufsSet0

/-- The stimulus-buffer-corrected `pixBufCounter` the formulas consume. -/
def spec_pixBufCounter (p : SmpParams) : ℕ :=
  if p.nStimBufPerFr > 0 then p.pixBufCounter0 * p.nStimBufPerFr else p.pixBufCounter0

/-- Spec: "`buffersToRead` = (buffersSet == buffersConsumedSoFar) ?
buffersSet×buffersPerFrame : (buffersSet − buffersConsumedSoFar) ×
buffersPerFrame, then scaled by framesPerAveragingStep" (stored through
Python's `int`). -/
def spec_buffersToRead (p : SmpParams) : ℤ :=
  truncQ ((if spec_nPixBufsSet p = spec_pixBufCounter p then
      (spec_nPixBufsSet p : ℚ) * spec_buffersPerFrame p
    else ((spec_nPixBufsSet p : ℚ) - (spec_pixBufCounter p : ℚ)) * spec_buffersPerFrame p) *
    (spec_framesPerAveragingStep p : ℚ))

/-- Spec: "`frameCount` = (buffersToRead / framesPerAveragingStep ×
pixelBufferLength) / pixelsPerFrame × imagesPerFrame" (stored through
Python's `int`; `imagesPerFrame` clamped to at least 1 as in the code). -/
def spec_frameCount (p : SmpParams) : ℤ :=
  truncQ (((spec_buffersToRead p : ℚ) / (spec_framesPerAveragingStep p : ℚ) *
    (spec_pixelBufferLength p : ℚ)) / (spec_pixelsPerFrame p : ℚ) *
    ((max 1 p.nImgPerFr0 : ℕ) : ℚ))

/-- The example geometry of spec section 8: fast axis 80, slow axis 64,
pixel buffer length 5120, three active channels, recording complete
(`nPixBufsSet = pixBufCounter = 100`). -/
def exampleSmpParams : SmpParams :=
  ⟨ScM_scanMode_XYImage, 10, 80, 64, 0, 1, 1, 100, 100, [5120, 5120, 5120], 3, 1⟩

/- ------------------------------------------------------------------
scanm_smp.py lines 29-61: handle state, reset, and the entry checks of
SMP.loadSMP
------------------------------------------------------------------ -/

/-- A 3-dimensional per-channel array (frames × rows × fast-axis pixels).
Sample values are embedded as integers (the uint16 case; nothing below
depends on the sample values themselves). -/
abbrev Arr3 := List (List (List ℤ))

/-- The mutable attributes of an `SMP` handle that `_reset`, the
`loadSMP` entry checks and `getData` touch.  `wPixData` holds one
`[channel index, data]` pair per active input channel (flat before the
reshape stage). -/
structure Handle where
  isSMHReady : Bool
  isSMPReady : Bool
  smhPreHdrDict : List (PyStr × ℤ)
  smpPreHdrDict : List (PyStr × ℤ)
  kvPairDict : List (PyStr × Entry)
  fPath : PyStr
  wPixData : List (ℕ × List ℤ)
  deriving DecidableEq, Repr

/-- `SMP._reset` (scanm_smp.py lines 29-34), which calls `SMH._reset`
(scanm_smh.py lines 26-32): clears both readiness flags, both pre-header
dictionaries, the parameter dictionary and the file path.  The attributes
holding previously read pixel data (`_wPixData` and friends) are not
assigned by either `_reset`. -/
def resetH (s : Handle) : Handle :=
  { s with
    isSMPReady := false
    smpPreHdrDict := []
    smhPreHdrDict := []
    kvPairDict := []
    fPath := []
    isSMHReady := false }

/-- Outcome of the entry portion of `SMP.loadSMP` (lines 41-61): an early
`return errC`, a raised exception, or fall-through into the pixel-reading
body with the (possibly reset) handle. -/
inductive EntryOutcome where
  | ret (errC : ℕ) (s : Handle)
  | exn (e : PyExn) (s : Handle)
  | proceeds (s : Handle)
  deriving DecidableEq, Repr

/-- The entry checks of `SMP.loadSMP` (scanm_smp.py lines 41-61): reset
the object if `_isSMPReady`; fail with `ERR_InvalidSMHObject` unless
`_isSMHReady`; fail with `ERR_FileNotFound` if the `.smp` file is absent;
then require `scanMode in [ScM_scanMode_XYImage]`, where a rejected mode
is formatted through `ScM_scanModeStr[scanMode]` (an `IndexError` for an
integer outside the 8-entry table, a `TypeError` for a non-integer such
as `None`) before `ERR_NotImplemented` is returned. -/
def loadSMP_entry (s : Handle) (smpFileExists : Bool) : EntryOutcome :=
  let s1 := if s.isSMPReady then resetH s else s
  if s1.isSMHReady = false then .ret ERR_InvalidSMHObject s1
  else if smpFileExists = false then .ret ERR_FileNotFound s1
  else
    match getVal s1.kvPairDict "ScanMode".toList with
    | some (.vInt m) =>
      if m = 0 then .proceeds s1
      else if -(ScM_scanModeStrLen : ℤ) ≤ m ∧ m < (ScM_scanModeStrLen : ℤ) then
        .ret ERR_NotImplemented s1
      else .exn .indexError s1
    | some (.vFloat (some q)) =>
      if q = 0 then .proceeds s1 else .exn .typeError s1
    | _ => .exn .typeError s1

/- ------------------------------------------------------------------
scanm_smp.py lines 341-375: the per-channel reshape stage
------------------------------------------------------------------ -/

/-- Cut `l` into consecutive chunks of `k` elements (the fuel argument is
`l.length`, enough for every `k ≥ 1`). -/
def chunkGo (k : ℕ) : ℕ → List α → List (List α)
  | 0, _ => []
  | _, [] => []
  | fuel + 1, l => l.take k :: chunkGo k fuel (l.drop k)

/-- Consecutive chunks of `k` elements of `l`. -/
def chunkList (k : ℕ) (l : List α) : List (List α) := chunkGo k l.length l

/-- Modelled from numpy: the in-place shape assignment
`arr.shape = (n1, n2, n3)` succeeds exactly when the flat length equals
`n1 * n2 * n3` (numpy never truncates or pads) and raises `ValueError`
otherwise. -/
def npSetShape3 (flat : List ℤ) (n1 n2 n3 : ℕ) : Except Unit Arr3 :=
  if flat.length = n1 * n2 * n3 then .ok (chunkList n2 (chunkList n3 flat))
  else .error ()

/-- Result of the reshape stage: a raised exception, an early
`return errC`, or the reshaped per-channel arrays. -/
inductive ReshapeOutcome where
  | exn (e : PyExn)
  | err (errC : ℕ)
  | okw (w : List (ℕ × Arr3))
  deriving DecidableEq, Repr

/-- The reshape loop of `SMP.loadSMP` (lines 341-375), one iteration per
active channel: for the XY/XZY/ZXY modes assign the shape
`(nFr, n2, dFast)` and turn a `ValueError` into an early return of
`ERR_CannotReshapePixelData`; `TrajectArb` and `XYZImage` return
`ERR_NotImplemented`; every other mode evaluates the undefined name
`ERR_UnknownScanCode` (a `NameError`, line 368). -/
def reshapeStageGo (scanMode nFr n2 dFast : ℕ) :
    List (ℕ × List ℤ) → ReshapeOutcome
  | [] => .okw []
  | (ich, flat) :: rest =>
    if scanMode = ScM_scanMode_XYImage ∨ scanMode = ScM_scanMode_XZYImage ∨
        scanMode = ScM_scanMode_ZXYImage then
      match npSetShape3 flat nFr n2 dFast with
      | .error _ => .err ERR_CannotReshapePixelData
      | .ok a =>
        match reshapeStageGo scanMode nFr n2 dFast rest with
        | .okw l => .okw ((ich, a) :: l)
        | r => r
    else if scanMode = ScM_scanMode_TrajectArb then .err ERR_NotImplemented
    else if scanMode = ScM_scanMode_XYZImage then .err ERR_NotImplemented
    else .exn .nameError

/-- The reshape stage with the shape the code computes:
`(self._nFr, int(dSlow1 / nImgPerFr), dFast)` (exact division truncated
toward zero equals `Nat` division here). -/
def reshapeStage (scanMode nFr dSlow1 nImgPerFr dFast : ℕ)
    (w : List (ℕ × List ℤ)) : ReshapeOutcome :=
  reshapeStageGo scanMode nFr (dSlow1 / nImgPerFr) dFast w

/- ------------------------------------------------------------------
scanm_smp.py lines 396-410: SMP.getData and its cropping slice
------------------------------------------------------------------ -/

/-- Python list slicing `l[start:stop]` with step 1, a nonnegative start
and a possibly negative stop: a negative stop counts from the end, and
both bounds clamp to the list. -/
def pySlice (l : List α) (start : ℕ) (stop : ℤ) : List α :=
  let L : ℤ := l.length
  let stopEff : ℤ := if stop < 0 then max 0 (L + stop) else min stop L
  (l.take stopEff.toNat).drop start

/-- The crop of line 407:
`self._wPixData[j][1][:, :, self._nFastPixOff:-self._nFastPixRetr]`. -/
def crop3 (a : Arr3) (off retr : ℕ) : Arr3 :=
  a.map (fun fr => fr.map (fun row => pySlice row off (-(retr : ℤ))))

/-- The loop of `SMP.getData` (lines 399-410): `j` runs over
`range(SCMIO_maxInputChans)` and `self._wPixData[j]` is read without a
bounds check, so the read itself raises `IndexError` once `j` reaches the
number of active channels; a crop for a scan mode outside XY/XZY/ZXY hits
the `assert False`.  `.ok none` is the `return None` after the loop. -/
def getDataGo (w : List (ℕ × Arr3)) (scanMode off retr ch : ℕ) (crop : Bool) :
    ℕ → ℕ → Except PyExn (Option Arr3)
  | 0, _ => .ok none
  | k + 1, j =>
    match w.get? j with
    | none => .error .indexError
    | some (ich, a) =>
      if ich = ch then
        if crop = false then .ok (some a)
        else if scanMode = ScM_scanMode_XYImage ∨ scanMode = ScM_scanMode_XZYImage ∨
            scanMode = ScM_scanMode_ZXYImage then
          .ok (some (crop3 a off retr))
        else .error .assertionError
      else getDataGo w scanMode off retr ch crop k (j + 1)

/-- `SMP.getData(ch, crop)` on the reshaped per-channel arrays `w`, with
the saved scan mode, fast-axis offset and retrace. -/
def getData (w : List (ℕ × Arr3)) (scanMode off retr ch : ℕ) (crop : Bool) :
    Except PyExn (Option Arr3) :=
  getDataGo w scanMode off retr ch crop SCMIO_maxInputChans 0

/- ------------------------------------------------------------------
Concrete fixtures used by witnesses and counterexamples
------------------------------------------------------------------ -/

/-- A fast-axis row of 80 distinct samples. -/
def rowRange80 : List ℤ := (List.range 80).map Int.ofNat

/-- A handle in state `PixelDataLoaded`: header and pixel data loaded,
with a nonempty parameter dictionary and one loaded channel. -/
def handleLoaded : Handle :=
  { isSMHReady := true
    isSMPReady := true
    smhPreHdrDict := [("analogDataLen_byte".toList, 81920)]
    smpPreHdrDict := [("analogDataLen_byte".toList, 81920)]
    kvPairDict := [("ScanMode".toList, ⟨.uint32, 1, .vInt 0⟩)]
    fPath := "rec".toList
    wPixData := [(0, [1, 2])] }

/-- A handle in state `HeaderLoaded` whose scan mode is `XZYImage` (4). -/
def handleHeaderXZY : Handle :=
  { isSMHReady := true
    isSMPReady := false
    smhPreHdrDict := [("analogDataLen_byte".toList, 81920)]
    smpPreHdrDict := []
    kvPairDict := [("ScanMode".toList, ⟨.uint32, 1, .vInt 4⟩)]
    fPath := "rec".toList
    wPixData := [] }

/-- A handle in state `Empty`: nothing loaded. -/
def handleEmpty : Handle :=
  { isSMHReady := false
    isSMPReady := false
    smhPreHdrDict := []
    smpPreHdrDict := []
    kvPairDict := []
    fPath := []
    wPixData := [] }

/- ------------------------------------------------------------------
Theorems
------------------------------------------------------------------ -/

/-- The two ways of defaulting a zero-valued slow axis to 1 agree: the
code tests `> 0`, the spec wording tests `= 0`. -/
theorem natDefaultOne (n : ℕ) : (if n > 0 then n else 1) = (if n = 0 then 1 else n) := by
  by_cases h : n = 0
  · simp [h]
  · simp [h, Nat.pos_of_ne_zero h]

/-- C1: for every recording in XY-raster mode, the pixel-stream reader's
arithmetic (`smpArith`, translated from `SMP.loadSMP`) computes
`pixelsPerFrame`, `buffersPerFrame`, `buffersToRead` and the stored frame
count exactly as the spec formulas state them (slow axes defaulted to 1
when declared 0, `buffersPerFrame` a real-valued intermediate, the
complete/incomplete-recording case split on `nPixBufsSet = pixBufCounter`,
scaling by the averaging-step count); and on the spec's example geometry
(fast axis 80, slow axis 64, pixel-buffer length 5120) it reproduces the
hand-computed values `pixelsPerFrame = 5120`, `buffersPerFrame = 1`,
`buffersToRead = 100`, `frameCount = 100`. -/
theorem c1_pixel_frame_arithmetic :
    (∀ p : SmpParams, p.scanMode = ScM_scanMode_XYImage →
      (smpArith p).nPixPerFr = spec_pixelsPerFrame p ∧
      (smpArith p).nBufPerFr = spec_buffersPerFrame p ∧
      (smpArith p).nPixB = spec_buffersToRead p ∧
      (smpArith p).nFr = spec_frameCount p) ∧
    smpArith exampleSmpParams = ⟨5120, 1, 100, 100⟩ := by
  constructor
  · intro p _
    refine ⟨?_, ?_, ?_, ?_⟩ <;>
      simp only [smpArith, spec_pixelsPerFrame, spec_buffersPerFrame,
        spec_pixelBufferLength, spec_buffersToRead, spec_frameCount,
        spec_framesPerAveragingStep, spec_nPixBufsSet, spec_pixBufCounter,
        natDefaultOne]
  · norm_num [smpArith, exampleSmpParams, truncQ]

/-- Witness for C1 at the example geometry: its scan mode is the XY-raster
mode and the quantified part applies to it. -/
theorem c1_pixel_frame_arithmetic_witness :
    (smpArith exampleSmpParams).nPixPerFr = spec_pixelsPerFrame exampleSmpParams ∧
    (smpArith exampleSmpParams).nBufPerFr = spec_buffersPerFrame exampleSmpParams :=
  ⟨(c1_pixel_frame_arithmetic.1 exampleSmpParams rfl).1,
   (c1_pixel_frame_arithmetic.1 exampleSmpParams rfl).2.1⟩

/-- `getD` read through `drop`. -/
theorem listGetD_drop (l : List ℕ) (i : ℕ) : l.getD i 0 = (l.drop i).headD 0 := by
  induction l generalizing i with
  | nil => simp
  | cons a l ih =>
    cases i with
    | zero => simp
    | succ j => simp [ih j]

/-- Shifting the (char, 0) interleaving by one byte turns it into the
(0, char) interleaving the steady decoder phase consumes. -/
theorem interleaveShift (rest : List Char) :
    (0 : ℕ) :: (rest.flatMap (fun c => [c.toNat, 0]) ++ [10]) =
      (rest.flatMap fun c => [0, c.toNat]) ++ [0, 10] := by
  induction rest with
  | nil => simp
  | cons c cs ih => simp [ih]

/-- Length of the encoded byte stream of a line. -/
theorem encodeDBL_length (cs : List Char) : (encodeDBL cs).length = 2 * cs.length + 1 := by
  induction cs with
  | nil => simp [encodeDBL]
  | cons c cs ih =>
    simp [encodeDBL] at ih ⊢
    omega

/-- `split("\n")[0]` keeps a newline-free prefix unchanged. -/
theorem takeWhile_append_nl (l : List Char) (h : ∀ c ∈ l, c ≠ '\n') :
    List.takeWhile (fun c => decide (c ≠ '\n')) (l ++ ['\n']) = l := by
  induction l with
  | nil => simp
  | cons c cs ih =>
    have hc : c ≠ '\n' := h c (by simp)
    have ih2 := ih (fun x hx => h x (by simp [hx]))
    simp only [List.cons_append, List.takeWhile_cons]
    simp only [decide_not] at ih2 ⊢
    simp [hc, ih2]

/-- One decoder iteration on a zero even byte emits the following byte. -/
theorem dblGo_step0 (buf : List ℕ) (n i : ℕ) (tmp : List Char) (h0 : buf.getD i 0 = 0) :
    dblGo buf (n + 1) i tmp = dblGo buf n (i + 2) (tmp ++ [Char.ofNat (buf.getD (i + 1) 0)]) := by
  simp only [dblGo, h0]
  simp

/-- One decoder iteration on a nonzero even byte replaces the last emitted
character by the two bytes at offsets 0 and 2. -/
theorem dblGo_step1 (buf : List ℕ) (n i : ℕ) (tmp : List Char) (h0 : buf.getD i 0 ≠ 0) :
    dblGo buf (n + 1) i tmp =
      dblGo buf n (i + 3)
        (tmp.dropLast ++ [Char.ofNat (buf.getD i 0), Char.ofNat (buf.getD (i + 2) 0)]) := by
  simp only [dblGo]
  rw [if_neg h0]

/-- The steady phase of the decoder: from an even position whose tail is
the (0, char) interleaving of `ds` followed by the newline pair, the loop
emits exactly `ds` and then the newline. -/
theorem dblGo_steady (ds : List Char) : ∀ (buf : List ℕ) (i : ℕ) (tmp : List Char),
    buf.drop i = (ds.flatMap fun c => [0, c.toNat]) ++ [0, 10] →
    dblGo buf (ds.length + 1) i tmp = tmp ++ ds ++ ['\n'] := by
  induction ds with
  | nil =>
    intro buf i tmp h
    have h0 : buf.getD i 0 = 0 := by rw [listGetD_drop, h]; rfl
    have h1 : buf.getD (i + 1) 0 = 10 := by
      rw [listGetD_drop]
      have hs := List.tail_drop buf i
      rw [h] at hs
      have h2 : buf.drop (i + 1) = [10] := by simpa using hs.symm
      rw [h2]; rfl
    rw [show (([] : List Char).length + 1) = 0 + 1 from rfl]
    rw [dblGo_step0 buf 0 i tmp h0, h1]
    simp [dblGo, show Char.ofNat 10 = '\n' from rfl]
  | cons d ds ih =>
    intro buf i tmp h
    have h0 : buf.getD i 0 = 0 := by rw [listGetD_drop, h]; rfl
    have hd1 : buf.drop (i + 1) = d.toNat :: ((ds.flatMap fun c => [0, c.toNat]) ++ [0, 10]) := by
      have hs := List.tail_drop buf i
      rw [h] at hs
      simpa using hs.symm
    have h1 : buf.getD (i + 1) 0 = d.toNat := by rw [listGetD_drop, hd1]; rfl
    have hd2 : buf.drop (i + 2) = (ds.flatMap fun c => [0, c.toNat]) ++ [0, 10] := by
      have hs := List.tail_drop buf (i + 1)
      rw [hd1] at hs
      simpa using hs.symm
    rw [show ((d :: ds).length + 1) = (ds.length + 1) + 1 from by simp]
    rw [dblGo_step0 buf (ds.length + 1) i tmp h0, h1, Char.ofNat_toNat]
    rw [ih buf (i + 2) (tmp ++ [d]) hd2]
    simp

/-- The decoder reproduces any line of nonzero, newline-free ASCII text
from its legacy dual-byte encoding. -/
theorem decodeDBL_encodeDBL (cs : List Char)
    (h : ∀ c ∈ cs, 0 < c.toNat ∧ c.toNat < 128 ∧ c ≠ '\n') :
    decodeDBL (encodeDBL cs) = cs := by
  match cs with
  | [] => decide
  | c0 :: rest =>
    have hbuf : encodeDBL (c0 :: rest) =
        c0.toNat :: 0 :: (rest.flatMap (fun c => [c.toNat, 0]) ++ [10]) := by
      simp [encodeDBL]
    have hc0 := h c0 (by simp)
    have hN : ((encodeDBL (c0 :: rest)).length - 1) / 2 = rest.length + 1 := by
      rw [encodeDBL_length]
      simp only [List.length_cons]
      omega
    unfold decodeDBL
    rw [hN]
    have h00 : (encodeDBL (c0 :: rest)).getD 0 0 = c0.toNat := by rw [hbuf]; rfl
    have h0ne : (encodeDBL (c0 :: rest)).getD 0 0 ≠ 0 := by rw [h00]; omega
    rw [dblGo_step1 _ _ _ _ h0ne, h00, Char.ofNat_toNat]
    match rest with
    | [] =>
      have h2 : (encodeDBL [c0]).getD (0 + 2) 0 = 10 := by rw [hbuf]; rfl
      rw [h2]
      simp only [List.length_nil, dblGo, List.dropLast_nil, List.nil_append]
      rw [show Char.ofNat 10 = '\n' from rfl]
      exact takeWhile_append_nl [c0] (by simp [hc0.2.2])
    | c1 :: rest2 =>
      have h2 : (encodeDBL (c0 :: c1 :: rest2)).getD (0 + 2) 0 = c1.toNat := by
        rw [hbuf]; rfl
      rw [h2, Char.ofNat_toNat]
      have hdrop : (encodeDBL (c0 :: c1 :: rest2)).drop (0 + 3) =
          (rest2.flatMap fun c => [0, c.toNat]) ++ [0, 10] := by
        rw [hbuf]
        simp only [List.flatMap_cons]
        rw [← interleaveShift rest2]
        rfl
      have hsteady := dblGo_steady rest2 (encodeDBL (c0 :: c1 :: rest2)) (0 + 3)
        ([].dropLast ++ [c0, c1]) hdrop
      rw [show (c1 :: rest2).length = rest2.length + 1 from by simp]
      rw [hsteady]
      have hfin := takeWhile_append_nl (c0 :: c1 :: rest2)
        (fun x hx => (h x hx).2.2)
      simpa using hfin

/-- C9: the dual-byte line decoder is the identity on legacy-encoded lines
of (nonzero, newline-free) ASCII text, and it reconstructs the micro sign
(Latin-1 0xB5, whose bytes reach the loop as the pair 0xC2 0xB5) from a
two-byte-encoded line: decoding the encoded line `a µ b` yields exactly
the three characters `a`, `µ`, `b`. -/
theorem c9_dual_byte_decoder :
    (∀ cs : List Char, (∀ c ∈ cs, 0 < c.toNat ∧ c.toNat < 128 ∧ c ≠ '\n') →
      decodeDBL (encodeDBL cs) = cs) ∧
    decodeDBL [0x61, 0, 0xC2, 0xB5, 0, 0x62, 0, 10] =
      [Char.ofNat 0x61, Char.ofNat 0xB5, Char.ofNat 0x62] := by
  constructor
  · exact decodeDBL_encodeDBL
  · decide

/-- Witness for C9 on a concrete ASCII line. -/
theorem c9_dual_byte_decoder_witness :
    decodeDBL (encodeDBL "ScanMode".toList) = "ScanMode".toList :=
  c9_dual_byte_decoder.1 "ScanMode".toList (by decide)

/-- `get?` read through `drop`. -/
theorem listGetQ_drop (l : List α) (i : ℕ) : l.get? i = (l.drop i).head? := by
  induction l generalizing i with
  | nil => simp
  | cons a l ih =>
    cases i with
    | zero => simp
    | succ j => simp [ih j]

/-- For a retrace of at least 1, the Python slice `row[off:-retr]` is the
half-open range `[off : len − retr)`. -/
theorem pySlice_negStop (l : List α) (start retr : ℕ) (h : 1 ≤ retr) :
    pySlice l start (-(retr : ℤ)) = (l.drop start).take (l.length - retr - start) := by
  simp only [pySlice]
  have hneg : (-(retr : ℤ) < 0) := by omega
  rw [if_pos hneg]
  have htn : (max (0 : ℤ) ((l.length : ℤ) + -(retr : ℤ))).toNat = l.length - retr := by omega
  rw [htn, List.drop_take]

/-- The `getData` loop finds the first entry of its channel, provided the
entries before it fit inside the four probed positions. -/
theorem getDataGo_found (x : ℕ × Arr3) (sm off retr : ℕ) (crop : Bool) :
    ∀ (pre : List (ℕ × Arr3)) (rest w : List (ℕ × Arr3)) (k j : ℕ),
    w.drop j = pre ++ x :: rest → pre.length < k → (∀ p ∈ pre, p.1 ≠ x.1) →
    getDataGo w sm off retr x.1 crop k j =
      (if crop = false then .ok (some x.2)
       else if sm = ScM_scanMode_XYImage ∨ sm = ScM_scanMode_XZYImage ∨
           sm = ScM_scanMode_ZXYImage then
         .ok (some (crop3 x.2 off retr))
       else .error .assertionError) := by
  intro pre
  induction pre with
  | nil =>
    intro rest w k j hdrop hk _
    match k, hk with
    | k' + 1, _ =>
      have hget : w.get? j = some x := by
        rw [listGetQ_drop, hdrop]; rfl
      simp only [getDataGo, hget]
      simp
  | cons p pre ih =>
    intro rest w k j hdrop hk hne
    match k, hk with
    | k' + 1, hk =>
      have hget : w.get? j = some p := by
        rw [listGetQ_drop, hdrop]; rfl
      have hd2 : w.drop (j + 1) = pre ++ x :: rest := by
        have hs := List.tail_drop w j
        rw [hdrop] at hs
        simpa using hs.symm
      have hpne : p.1 ≠ x.1 := hne p (by simp)
      have hrec := ih rest w k' (j + 1) hd2 (by simpa using hk)
        (fun q hq => hne q (by simp [hq]))
      simp only [getDataGo, hget]
      rw [if_neg hpne]
      exact hrec

/-- C2 (amended): for every loaded XY recording and present channel,
`getData(ch, crop=false)` returns the full array, and for every retrace of
at least 1 `getData(ch, crop=true)` slices the fast axis to the half-open
range `[offset : length − retrace]`; on fast-axis length 80 with offset 6
and retrace 10 the cropped length is exactly 64.  (For retrace = 0 the
slice `[off:-0]` is empty — see the counterexample.) -/
theorem c2_crop_slice :
    (∀ (pre rest : List (ℕ × Arr3)) (a : Arr3) (ch off retr : ℕ),
      1 ≤ retr → pre.length ≤ 3 → (∀ p ∈ pre, p.1 ≠ ch) →
      getData (pre ++ (ch, a) :: rest) ScM_scanMode_XYImage off retr ch true =
        .ok (some (a.map (fun fr => fr.map
          (fun row => (row.drop off).take (row.length - retr - off))))) ∧
      getData (pre ++ (ch, a) :: rest) ScM_scanMode_XYImage off retr ch false =
        .ok (some a)) ∧
    getData [(0, [[rowRange80]])] ScM_scanMode_XYImage 6 10 0 true =
      .ok (some [[(rowRange80.drop 6).take 64]]) ∧
    ((rowRange80.drop 6).take 64).length = 64 := by
  refine ⟨?_, ?_, ?_⟩
  · intro pre rest a ch off retr hretr hpre hne
    have hfound := getDataGo_found (ch, a) ScM_scanMode_XYImage off retr
    constructor
    · have h1 := hfound true pre rest (pre ++ (ch, a) :: rest) SCMIO_maxInputChans 0
        (by simp) (by simpa [SCMIO_maxInputChans] using Nat.lt_succ_of_le hpre) hne
      rw [getData, h1]
      simp [crop3]
      intro fr _ row _
      exact pySlice_negStop row off retr hretr
    · have h0 := hfound false pre rest (pre ++ (ch, a) :: rest) SCMIO_maxInputChans 0
        (by simp) (by simpa [SCMIO_maxInputChans] using Nat.lt_succ_of_le hpre) hne
      rw [getData, h0]
      simp
  · decide
  · decide

/-- C2 counterexample: with retrace = 0 the claimed slice
`[offset : length − retrace]` does not hold.  On a channel of fast-axis
length 80 with offset 6, `getData(0, crop=true)` returns an empty fast
axis (Python's `row[6:-0]` is `row[6:0]`), while the claimed half-open
range `[6 : 80]` has 74 elements. -/
theorem c2_crop_retrace_zero_counterexample :
    getData [(0, [[rowRange80]])] ScM_scanMode_XYImage 6 0 0 true =
      .ok (some [[[]]]) ∧
    (rowRange80.drop 6).take (rowRange80.length - 0 - 6) ≠ [] ∧
    ((rowRange80.drop 6).take (rowRange80.length - 0 - 6)).length = 74 := by
  refine ⟨by decide, by decide, by decide⟩

/-- Witness for C2 at a concrete single-channel handle with offset 6 and
retrace 10. -/
theorem c2_crop_slice_witness :
    getData [(0, [[rowRange80]])] ScM_scanMode_XYImage 6 10 0 true =
      .ok (some ([[rowRange80]].map (fun fr => fr.map
        (fun row => (row.drop 6).take (row.length - 10 - 6))))) ∧
    getData [(0, [[rowRange80]])] ScM_scanMode_XYImage 6 10 0 false =
      .ok (some [[rowRange80]]) :=
  c2_crop_slice.1 [] [] [[rowRange80]] 0 6 10 (by decide) (by decide) (by decide)

/-- C3: requesting a channel whose bit is not in the input-channel mask
does not return `None` when fewer than four channels are active — the
loop of `getData` reads `self._wPixData[j]` for `j` in `range(4)` without
a bounds check, so with one active channel the request for channel 1
raises `IndexError`, contradicting the claim and the function's own
docstring.  Only when all four probed positions exist (four active
channels) does the absent-channel request fall through to `return None`. -/
theorem c3_absent_channel_raises_indexerror :
    getData [(0, [[[1, 2, 3]]])] ScM_scanMode_XYImage 6 10 1 false =
      .error .indexError ∧
    getData [(0, [[[1]]]), (1, [[[2]]]), (2, [[[3]]]), (3, [[[4]]])]
      ScM_scanMode_XYImage 6 10 7 false = .ok none := by
  refine ⟨by decide, by decide⟩

/-- Concatenating the chunks gives back the original list. -/
theorem chunkGo_flatten {α : Type} (k : ℕ) (hk : 0 < k) :
    ∀ (fuel : ℕ) (l : List α), l.length ≤ fuel → (chunkGo k fuel l).flatten = l := by
  intro fuel
  induction fuel with
  | zero =>
    intro l hl
    have : l = [] := List.eq_nil_of_length_eq_zero (by omega)
    subst this
    simp [chunkGo]
  | succ n ih =>
    intro l hl
    match l with
    | [] => simp [chunkGo]
    | a :: t =>
      have hrec := ih ((a :: t).drop k) (by
        simp only [List.length_drop, List.length_cons] at hl ⊢
        omega)
      simp only [chunkGo, List.flatten_cons, hrec, List.take_append_drop]

/-- `k * m - k = k * (m - 1)` over the naturals. -/
theorem mulSubOne (k m : ℕ) : k * m - k = k * (m - 1) := by
  cases m with
  | zero => simp
  | succ mp =>
    rw [Nat.mul_succ]
    simp

/-- Chunk-count recurrence for an exactly divisible length. -/
theorem chunkDivArith (k m : ℕ) (hk : 0 < k) :
    ∀ L, L = k * m → 1 ≤ m → (L - k) / k + 1 = L / k := by
  intro L hL hm
  subst hL
  rw [Nat.mul_div_cancel_left _ hk]
  rw [mulSubOne k m, Nat.mul_div_cancel_left _ hk]
  omega

/-- For an exactly divisible length, chunking yields `len / k` chunks of
`k` elements each. -/
theorem chunkGo_count {α : Type} (k : ℕ) (hk : 0 < k) :
    ∀ (fuel : ℕ) (l : List α), l.length ≤ fuel → k ∣ l.length →
    (chunkGo k fuel l).length = l.length / k ∧ ∀ c ∈ chunkGo k fuel l, c.length = k := by
  intro fuel
  induction fuel with
  | zero =>
    intro l hl _
    have : l = [] := List.eq_nil_of_length_eq_zero (by omega)
    subst this
    simp [chunkGo]
  | succ n ih =>
    intro l hl hdvd
    match l with
    | [] => simp [chunkGo]
    | a :: t =>
      obtain ⟨m, hm⟩ := hdvd
      have hm1 : 1 ≤ m := by
        by_contra hc
        simp at hc
        subst hc
        simp at hm
      have hkle : k ≤ (a :: t).length := by
        rw [hm]
        exact Nat.le_mul_of_pos_right k hm1
      have hdl : ((a :: t).drop k).length = (a :: t).length - k := by simp
      have hdvd2 : k ∣ ((a :: t).drop k).length := by
        rw [hdl, hm]
        exact ⟨m - 1, mulSubOne k m⟩
      have hrec := ih ((a :: t).drop k) (by
        simp only [List.length_drop, List.length_cons] at hl ⊢
        omega) hdvd2
      constructor
      · simp only [chunkGo, List.length_cons, hrec.1, hdl]
        exact chunkDivArith k m hk _ (by simpa using hm) hm1
      · intro c hc
        simp only [chunkGo, List.mem_cons] at hc
        rcases hc with hc | hc
        · rw [hc]
          simp only [List.length_take, List.length_cons]
          simp only [List.length_cons] at hkle
          omega
        · exact hrec.2 c hc

/-- The reshape succeeds exactly on an exact size match, and its value is
the nested chunking. -/
theorem npSetShape3_ok_iff (flat : List ℤ) (n1 n2 n3 : ℕ) (a : Arr3) :
    npSetShape3 flat n1 n2 n3 = .ok a ↔
      flat.length = n1 * n2 * n3 ∧ a = chunkList n2 (chunkList n3 flat) := by
  unfold npSetShape3
  by_cases h : flat.length = n1 * n2 * n3
  · simp [h, eq_comm]
  · simp [h]

/-- If any channel's flat length differs from the target size, the
reshape loop returns `ERR_CannotReshapePixelData`. -/
theorem reshapeStageGo_err (nFr n2 dFast : ℕ) :
    ∀ (w : List (ℕ × List ℤ)), (∃ p ∈ w, p.2.length ≠ nFr * n2 * dFast) →
    reshapeStageGo ScM_scanMode_XYImage nFr n2 dFast w = .err ERR_CannotReshapePixelData := by
  intro w
  induction w with
  | nil => simp
  | cons p rest ih =>
    intro hex
    obtain ⟨ich, flat⟩ := p
    simp only [reshapeStageGo]
    rw [if_pos (Or.inl trivial)]
    cases hshape : npSetShape3 flat nFr n2 dFast with
    | error e => rfl
    | ok a =>
      obtain ⟨q, hq, hbad⟩ := hex
      have hlen := (npSetShape3_ok_iff flat nFr n2 dFast a).mp hshape
      rcases List.mem_cons.mp hq with hq1 | hq2
      · exact absurd (by rw [hq1]; exact hlen.1) hbad
      · simp only []
        rw [ih ⟨q, hq2, hbad⟩]

/-- If every channel's flat length matches the target size, the reshape
loop reshapes every channel. -/
theorem reshapeStageGo_ok (nFr n2 dFast : ℕ) :
    ∀ (w : List (ℕ × List ℤ)), (∀ p ∈ w, p.2.length = nFr * n2 * dFast) →
    reshapeStageGo ScM_scanMode_XYImage nFr n2 dFast w =
      .okw (w.map (fun p => (p.1, chunkList n2 (chunkList dFast p.2)))) := by
  intro w
  induction w with
  | nil => intro _; simp [reshapeStageGo]
  | cons p rest ih =>
    intro hall
    obtain ⟨ich, flat⟩ := p
    simp only [reshapeStageGo]
    rw [if_pos (Or.inl trivial)]
    have hsh : npSetShape3 flat nFr n2 dFast = .ok (chunkList n2 (chunkList dFast flat)) :=
      (npSetShape3_ok_iff flat nFr n2 dFast _).mpr ⟨hall (ich, flat) (by simp), rfl⟩
    rw [hsh]
    have hrest := ih (fun q hq => hall q (by simp [hq]))
    rw [hrest]
    simp

/-- Shape and content of a successful reshape: `n1` frames of `n2` rows
of `n3` samples, whose concatenation is exactly the original buffer. -/
theorem npShape3_spec (flat : List ℤ) (n1 n2 n3 : ℕ)
    (hlen : flat.length = n1 * n2 * n3) (hn2 : 0 < n2) (hn3 : 0 < n3) :
    npSetShape3 flat n1 n2 n3 = .ok (chunkList n2 (chunkList n3 flat)) ∧
    (chunkList n2 (chunkList n3 flat)).length = n1 ∧
    (∀ fr ∈ chunkList n2 (chunkList n3 flat), fr.length = n2 ∧ ∀ row ∈ fr, row.length = n3) ∧
    (chunkList n2 (chunkList n3 flat)).flatten.flatten = flat := by
  have hdvd3 : n3 ∣ flat.length := ⟨n1 * n2, by rw [hlen]; ring⟩
  have hinner := chunkGo_count n3 hn3 flat.length flat le_rfl hdvd3
  have hinlen : (chunkList n3 flat).length = n1 * n2 := by
    show (chunkGo n3 flat.length flat).length = n1 * n2
    rw [hinner.1, hlen]
    exact Nat.mul_div_cancel _ hn3
  have hflat1 : (chunkList n3 flat).flatten = flat :=
    chunkGo_flatten n3 hn3 flat.length flat le_rfl
  have hdvd2 : n2 ∣ (chunkList n3 flat).length := ⟨n1, by rw [hinlen]; ring⟩
  have houter := chunkGo_count n2 hn2 (chunkList n3 flat).length (chunkList n3 flat)
    le_rfl hdvd2
  have houtlen : (chunkList n2 (chunkList n3 flat)).length = n1 := by
    show (chunkGo n2 (chunkList n3 flat).length (chunkList n3 flat)).length = n1
    rw [houter.1, hinlen]
    rw [Nat.mul_comm n1 n2]
    exact Nat.mul_div_cancel_left _ hn2
  have hflat2 : (chunkList n2 (chunkList n3 flat)).flatten = chunkList n3 flat :=
    chunkGo_flatten n2 hn2 _ _ le_rfl
  refine ⟨(npSetShape3_ok_iff flat n1 n2 n3 _).mpr ⟨hlen, rfl⟩, houtlen, ?_, ?_⟩
  · intro fr hfr
    refine ⟨houter.2 fr hfr, ?_⟩
    intro row hrow
    have hmem : row ∈ (chunkList n2 (chunkList n3 flat)).flatten :=
      List.mem_flatten.mpr ⟨fr, hfr, hrow⟩
    rw [hflat2] at hmem
    exact hinner.2 row hmem
  · rw [hflat2, hflat1]

/-- C4: on the XY scan mode, a channel buffer whose flat length is not an
exact multiple of `frameCount * (slowAxis1 / imagesPerFrame) * fastAxis`
makes the reshape raise, which the load loop turns into the early return
`ERR_CannotReshapePixelData`; the reshape never truncates or pads (a
successful reshape's content concatenates back to exactly the input); and
a channel whose length matches is reshaped to the shape
`(frameCount, slowAxis1 / imagesPerFrame, fastAxis)`. -/
theorem c4_reshape_exact :
    (∀ (flat : List ℤ) (n1 n2 n3 : ℕ), ¬ (n1 * n2 * n3 ∣ flat.length) →
      npSetShape3 flat n1 n2 n3 = .error ()) ∧
    (∀ (w : List (ℕ × List ℤ)) (nFr dSlow1 nImgPerFr dFast : ℕ),
      (∃ p ∈ w, ¬ (nFr * (dSlow1 / nImgPerFr) * dFast ∣ p.2.length)) →
      reshapeStage ScM_scanMode_XYImage nFr dSlow1 nImgPerFr dFast w =
        .err ERR_CannotReshapePixelData) ∧
    (∀ (flat : List ℤ) (n1 n2 n3 : ℕ), flat.length = n1 * n2 * n3 → 0 < n2 → 0 < n3 →
      npSetShape3 flat n1 n2 n3 = .ok (chunkList n2 (chunkList n3 flat)) ∧
      (chunkList n2 (chunkList n3 flat)).length = n1 ∧
      (∀ fr ∈ chunkList n2 (chunkList n3 flat),
        fr.length = n2 ∧ ∀ row ∈ fr, row.length = n3) ∧
      (chunkList n2 (chunkList n3 flat)).flatten.flatten = flat) ∧
    (∀ (w : List (ℕ × List ℤ)) (nFr dSlow1 nImgPerFr dFast : ℕ),
      (∀ p ∈ w, p.2.length = nFr * (dSlow1 / nImgPerFr) * dFast) →
      reshapeStage ScM_scanMode_XYImage nFr dSlow1 nImgPerFr dFast w =
        .okw (w.map (fun p =>
          (p.1, chunkList (dSlow1 / nImgPerFr) (chunkList dFast p.2))))) := by
  refine ⟨?_, ?_, ?_, ?_⟩
  · intro flat n1 n2 n3 h
    simp only [npSetShape3]
    rw [if_neg (fun heq => h (by rw [heq]))]
  · intro w nFr dSlow1 nImgPerFr dFast hex
    obtain ⟨p, hp, hnd⟩ := hex
    simp only [reshapeStage]
    exact reshapeStageGo_err nFr (dSlow1 / nImgPerFr) dFast w
      ⟨p, hp, fun he => hnd (by rw [he])⟩
  · intro flat n1 n2 n3 hlen hn2 hn3
    exact npShape3_spec flat n1 n2 n3 hlen hn2 hn3
  · intro w nFr dSlow1 nImgPerFr dFast hall
    simp only [reshapeStage]
    exact reshapeStageGo_ok nFr (dSlow1 / nImgPerFr) dFast w hall

/-- Witness for C4 on concrete buffers: a 25-sample buffer cannot take
the shape (2, 3, 4), a 24-sample buffer can. -/
theorem c4_reshape_exact_witness :
    npSetShape3 ((List.range 25).map Int.ofNat) 2 3 4 = .error () ∧
    reshapeStage ScM_scanMode_XYImage 2 3 1 4 [(0, (List.range 25).map Int.ofNat)] =
      .err ERR_CannotReshapePixelData ∧
    npSetShape3 ((List.range 24).map Int.ofNat) 2 3 4 =
      .ok (chunkList 3 (chunkList 4 ((List.range 24).map Int.ofNat))) ∧
    reshapeStage ScM_scanMode_XYImage 2 3 1 4 [(0, (List.range 24).map Int.ofNat)] =
      .okw ([(0, (List.range 24).map Int.ofNat)].map (fun p =>
        (p.1, chunkList (3 / 1) (chunkList 4 p.2)))) :=
  ⟨c4_reshape_exact.1 _ 2 3 4 (by decide),
   c4_reshape_exact.2.1 _ 2 3 1 4 ⟨(0, (List.range 25).map Int.ofNat), by simp, by decide⟩,
   (c4_reshape_exact.2.2.1 _ 2 3 4 (by decide) (by decide) (by decide)).1,
   c4_reshape_exact.2.2.2 _ 2 3 1 4 (by decide)⟩

/-- C5: on a handle in state `HeaderLoaded` whose scan-mode parameter is
any enumerated mode other than the XY raster (1 ≤ mode ≤ 7), `loadSMP`
returns `ERR_NotImplemented` from its entry check (scanm_smp.py lines
57-61), with the handle unchanged — in particular before any channel
buffer is allocated or filled, so no partially-filled channel data can be
returned. -/
theorem c5_reject_other_scan_modes (s : Handle) (m : ℤ) (hsmp : s.isSMPReady = false)
    (hsmh : s.isSMHReady = true)
    (hscan : getVal s.kvPairDict "ScanMode".toList = some (.vInt m))
    (hm1 : 1 ≤ m) (hm8 : m < 8) :
    loadSMP_entry s true = .ret ERR_NotImplemented s := by
  have hscan2 : getVal s.kvPairDict ['S', 'c', 'a', 'n', 'M', 'o', 'd', 'e'] =
      some (.vInt m) := hscan
  simp [loadSMP_entry, hsmp, hsmh, hscan2, ScM_scanModeStrLen]
  rw [if_neg (by omega : ¬ m = 0), if_pos (⟨by omega, by omega⟩ :
    -(8 : ℤ) ≤ m ∧ m < (8 : ℤ))]

/-- Witness for C5: a loaded header whose scan mode is `XZYImage` (4). -/
theorem c5_reject_other_scan_modes_witness :
    loadSMP_entry handleHeaderXZY true = .ret ERR_NotImplemented handleHeaderXZY :=
  c5_reject_other_scan_modes handleHeaderXZY 4 (by decide) (by decide) (by decide)
    (by decide) (by decide)

/-- C6: calling `loadSMP` on a handle whose header has not been loaded
(state `Empty`: both readiness flags false) returns `ERR_InvalidSMHObject`
— the spec's invalid-state error — and the returned handle is the input
handle itself: no field is mutated before the error return (the entry
reset only runs when `_isSMPReady` is set). -/
theorem c6_pixel_load_before_header (s : Handle) (hsmh : s.isSMHReady = false)
    (hsmp : s.isSMPReady = false) (ex : Bool) :
    loadSMP_entry s ex = .ret ERR_InvalidSMHObject s := by
  simp [loadSMP_entry, hsmp, hsmh]

/-- Witness for C6 on the empty handle. -/
theorem c6_pixel_load_before_header_witness :
    loadSMP_entry handleEmpty true = .ret ERR_InvalidSMHObject handleEmpty :=
  c6_pixel_load_before_header handleEmpty (by decide) (by decide) true

/-- C10 (amended): a second `loadSMP` on a handle in state
`PixelDataLoaded` first runs `_reset` — clearing both pre-header
dictionaries, the parameter dictionary, the file path and both readiness
flags — and then returns the invalid-state error, so pixel data can never
be loaded twice without re-running `loadSMH`; however, the reset does
*not* clear the previously loaded channel data arrays (`_wPixData`),
which survive the failed second call unchanged. -/
theorem c10_second_load_resets (s : Handle) (hsmp : s.isSMPReady = true) (ex : Bool) :
    loadSMP_entry s ex = .ret ERR_InvalidSMHObject (resetH s) ∧
    (resetH s).kvPairDict = [] ∧ (resetH s).isSMHReady = false ∧
    (resetH s).isSMPReady = false ∧ (resetH s).smhPreHdrDict = [] ∧
    (resetH s).smpPreHdrDict = [] ∧ (resetH s).fPath = [] ∧
    (resetH s).wPixData = s.wPixData := by
  refine ⟨?_, by simp [resetH], by simp [resetH], by simp [resetH], by simp [resetH],
    by simp [resetH], by simp [resetH], by simp [resetH]⟩
  simp [loadSMP_entry, hsmp, resetH]

/-- Witness for C10 on a concrete loaded handle. -/
theorem c10_second_load_resets_witness :
    loadSMP_entry handleLoaded true = .ret ERR_InvalidSMHObject (resetH handleLoaded) ∧
    (resetH handleLoaded).kvPairDict = [] ∧ (resetH handleLoaded).isSMHReady = false ∧
    (resetH handleLoaded).isSMPReady = false ∧ (resetH handleLoaded).smhPreHdrDict = [] ∧
    (resetH handleLoaded).smpPreHdrDict = [] ∧ (resetH handleLoaded).fPath = [] ∧
    (resetH handleLoaded).wPixData = handleLoaded.wPixData :=
  c10_second_load_resets handleLoaded (by decide) true

/-- C10 counterexample: the claim that the second call "discards all
previously loaded data" is false — after the failed second call on a
loaded handle, the channel data array is still present (nonempty), not
discarded. -/
theorem c10_wpixdata_not_discarded_counterexample :
    loadSMP_entry handleLoaded true = .ret ERR_InvalidSMHObject (resetH handleLoaded) ∧
    (resetH handleLoaded).wPixData = [(0, [1, 2])] ∧
    ([(0, [1, 2])] : List (ℕ × List ℤ)) ≠ [] := by
  refine ⟨by decide, by decide, by decide⟩

/-- The parse loop processes every line whenever each line parses without
an uncaught exception. -/
theorem parseLinesGo_total :
    ∀ (ls : List PyStr) (d : List (PyStr × Entry)) (errs : List PyStr),
    (∀ l ∈ ls, ∃ r, parseLine l = .ok r) →
    ∃ out, parseLinesGo ls d errs = .ok out := by
  intro ls
  induction ls with
  | nil => intro d errs _; exact ⟨(d, errs), rfl⟩
  | cons l rest ih =>
    intro d errs hall
    obtain ⟨r, hr⟩ := hall l (by simp)
    obtain ⟨out, hout⟩ := ih (updateKV d r.key r.ent)
      (if r.hasErr then errs ++ [r.key] else errs) (fun x hx => hall x (by simp [hx]))
    refine ⟨out, ?_⟩
    simp only [parseLinesGo, hr]
    exact hout

/-- Error keys outside the fixed substitute table are left untouched by
the repair pass. -/
theorem repairAll_skips :
    ∀ (ks : List PyStr) (d : List (PyStr × Entry)),
    (∀ k ∈ ks, k ≠ "PixRetraceLen".toList ∧ k ≠ "XPixLineOffs".toList) →
    repairAll d ks = .ok d := by
  intro ks
  induction ks with
  | nil => intro d _; rfl
  | cons k rest ih =>
    intro d hall
    have hk := hall k (by simp)
    simp only [repairAll, repairOne, if_neg hk.1, if_neg hk.2]
    exact ih d (fun x hx => hall x (by simp [hx]))

/-- A failed retrace-length key is recovered from sub-index 5 of the
scan-path-function descriptor. -/
theorem repairOne_retrace (d : List (PyStr × Entry)) (l : List PyStr) (x : PyStr) (n : ℤ)
    (hget : getVal d "ScanPathFunc".toList = some (.vStrList l))
    (hx : l.get? 5 = some x) (hn : pyIntOfToken x = some n) :
    repairOne d "PixRetraceLen".toList =
      .ok (updateKV d "PixRetraceLen".toList ⟨.uint32, 1, .vInt n⟩) := by
  simp only [repairOne, if_pos rfl, repairFetch, hget, pyIndex, hx, hn]
  simp [bind, Except.bind, hn]

/-- C7 (amended): an integer-parse failure on a `UINT32` or `UINT64`
value token (that is not the `nan` literal) is not fatal — the key is
stored with a null value and flagged as an error key; the line loop then
processes every remaining line (any list of individually parseable lines
is consumed in full), and the repair pass afterwards recovers only the
keys of the fixed substitute table (e.g. the retrace length from
sub-index 5 of `ScanPathFunc`), leaving all other error keys null.  A
parse failure on a `REAL32` token, by contrast, raises an uncaught
`ValueError` and aborts parsing — see the counterexample. -/
theorem c7_numeric_parse_recovery :
    (∀ (svr v : PyStr), pyLower v ≠ "nan".toList → pyIntOfToken v = none →
      parseTyped "UINT32".toList svr v = .ok ⟨svr, ⟨.uint32, 1, .vNone⟩, true⟩) ∧
    (∀ (svr v : PyStr), pyLower v ≠ "nan".toList → pyIntOfToken v = none →
      parseTyped "UINT64".toList svr v = .ok ⟨svr, ⟨.uint64, 1, .vNone⟩, true⟩) ∧
    (∀ (ls : List PyStr) (d : List (PyStr × Entry)) (errs : List PyStr),
      (∀ l ∈ ls, ∃ r, parseLine l = .ok r) →
      ∃ out, parseLinesGo ls d errs = .ok out) ∧
    (∀ (ks : List PyStr) (d : List (PyStr × Entry)),
      (∀ k ∈ ks, k ≠ "PixRetraceLen".toList ∧ k ≠ "XPixLineOffs".toList) →
      repairAll d ks = .ok d) ∧
    (∀ (d : List (PyStr × Entry)) (l : List PyStr) (x : PyStr) (n : ℤ),
      getVal d "ScanPathFunc".toList = some (.vStrList l) →
      l.get? 5 = some x → pyIntOfToken x = some n →
      repairOne d "PixRetraceLen".toList =
        .ok (updateKV d "PixRetraceLen".toList ⟨.uint32, 1, .vInt n⟩)) := by
  refine ⟨?_, ?_, parseLinesGo_total, repairAll_skips, repairOne_retrace⟩
  · intro svr v hnan hint
    rw [parseTyped, if_neg (by decide), if_neg (by decide), if_pos (Or.inl rfl),
      if_neg hnan]
    simp only [hint]
    rfl
  · intro svr v hnan hint
    rw [parseTyped, if_neg (by decide), if_neg (by decide), if_pos (Or.inr rfl),
      if_neg hnan]
    simp only [hint]
    simp

/-- C7 counterexample: the claim as stated also covers `REAL32`, but a
`REAL32` line whose token does not parse as a float makes the whole
parse abort with the uncaught `ValueError` — the following `UINT32` line
is never processed and no parameter dictionary is produced. -/
theorem c7_real32_aborts_counterexample :
    loadSMH_parse ["REAL32,K=abc;".toList, "UINT32,FrameWidth=80;".toList] =
      .error .valueError := by
  decide

/-- Witness for C7 on a concrete bad `UINT32` token. -/
theorem c7_numeric_parse_recovery_witness :
    parseTyped "UINT32".toList "PixRetraceLen".toList "xx".toList =
      .ok ⟨"PixRetraceLen".toList, ⟨.uint32, 1, .vNone⟩, true⟩ ∧
    (∃ out, parseLinesGo ["UINT32,PixRetraceLen=xx;".toList] [] [] = .ok out) := by
  constructor
  · exact c7_numeric_parse_recovery.1 "PixRetraceLen".toList "xx".toList
      (by decide) (by decide)
  · exact c7_numeric_parse_recovery.2.2.1 ["UINT32,PixRetraceLen=xx;".toList] [] []
      (fun l hl => by
        rw [List.mem_singleton] at hl
        rw [hl]
        exact ⟨⟨"PixRetraceLen".toList, ⟨.uint32, 1, .vNone⟩, true⟩, by decide⟩)

/-- C8: a `UINT32` or `UINT64` line whose value token is the
case-insensitive literal `nan` is always stored as a null-valued entry
with the float (`float64`) type tag — never as an integer, never with an
integer type tag, and never as a parse error (the error flag is false). -/
theorem c8_uint_nan_is_null_float :
    (∀ (sty svr v : PyStr), (sty = "UINT32".toList ∨ sty = "UINT64".toList) →
      pyLower v = "nan".toList →
      parseTyped sty svr v = .ok ⟨svr, ⟨.float64, 1, .vNone⟩, false⟩) ∧
    parseLine "UINT32,FrameCounter=NaN;".toList =
      .ok ⟨"FrameCounter".toList, ⟨.float64, 1, .vNone⟩, false⟩ := by
  constructor
  · intro sty svr v hty hnan
    rcases hty with h | h <;> subst h
    · rw [parseTyped, if_neg (by decide), if_neg (by decide),
        if_pos (Or.inl rfl), if_pos hnan]
    · rw [parseTyped, if_neg (by decide), if_neg (by decide),
        if_pos (Or.inr rfl), if_pos hnan]
  · decide

/-- Witness for C8 on a concrete `UINT64` nan token. -/
theorem c8_uint_nan_is_null_float_witness :
    parseTyped "UINT64".toList "NumberOfFrames".toList "NaN".toList =
      .ok ⟨"NumberOfFrames".toList, ⟨.float64, 1, .vNone⟩, false⟩ :=
  c8_uint_nan_is_null_float.1 "UINT64".toList "NumberOfFrames".toList "NaN".toList
    (Or.inr rfl) (by decide)
